import Mathlib

/-!
Verification of parse_goodreads.py (Goodreads-ReadDate-Hardcover-Importer).

Shallow embedding: BeautifulSoup find results are modelled as Option values
(a bs4 Tag defines a bool conversion that is always True, so Python truthiness
of a find result coincides with is-not-None); Python exceptions are modelled
with Except; machine-level details (HTTP transport, the DOM itself) are
abstracted to the data the script actually inspects.
-/

namespace ParseGoodreads

/-- Python exceptions that the script can raise or catch. -/
inductive PyExc where
  | attributeError
  | keyError
  | indexError
  | valueError
  | httpError
  | connectionError
  | timeoutError
deriving DecidableEq, Repr

/-- Python whitespace characters recognised by str.strip and str.split (ASCII fragment). -/
def isPySpace (c : Char) : Bool :=
  c = ' ' || c = '\t' || c = '\n' || c = '\r' || c = '\x0b' || c = '\x0c'

/-- Model of Python str.strip(): remove leading and trailing whitespace. -/
def pyStrip (s : String) : String :=
  String.mk (((s.toList.dropWhile isPySpace).reverse.dropWhile isPySpace).reverse)

/-- Helper for pySplitWS: split a character list on whitespace runs, accumulating
the current (reversed) token in acc. -/
def splitWSAux : List Char → List Char → List String
  | [], acc => if acc.isEmpty then [] else [String.mk acc.reverse]
  | c :: cs, acc =>
    if isPySpace c then
      if acc.isEmpty then splitWSAux cs [] else String.mk acc.reverse :: splitWSAux cs []
    else
      splitWSAux cs (c :: acc)

/-- Model of Python str.split() with no arguments: split on whitespace runs,
discarding empty pieces. -/
def pySplitWS (s : String) : List String :=
  splitWSAux s.toList []

/-- Does the pattern (first argument) occur at the start of the character
list (second argument)? -/
def listStartMatch : List Char → List Char → Bool
  | [], _ => true
  | _ :: _, [] => false
  | p :: ps, c :: cs => p == c && listStartMatch ps cs

/-- Model of Python str.startswith. -/
def pyStartsWith (s pat : String) : Bool :=
  listStartMatch pat.toList s.toList

/-- Model of Python str.endswith, used only to state the cookie scope the
spec describes. -/
def pyEndsWith (s pat : String) : Bool :=
  listStartMatch pat.toList.reverse s.toList.reverse

/-- Month number (1..12) for an already-lowercased three-letter abbreviation,
the month alternation of the strptime %b regex in the C locale. -/
def monthNumLower (x y z : Char) : Option Nat :=
  if x = 'j' ∧ y = 'a' ∧ z = 'n' then some 1
  else if x = 'f' ∧ y = 'e' ∧ z = 'b' then some 2
  else if x = 'm' ∧ y = 'a' ∧ z = 'r' then some 3
  else if x = 'a' ∧ y = 'p' ∧ z = 'r' then some 4
  else if x = 'm' ∧ y = 'a' ∧ z = 'y' then some 5
  else if x = 'j' ∧ y = 'u' ∧ z = 'n' then some 6
  else if x = 'j' ∧ y = 'u' ∧ z = 'l' then some 7
  else if x = 'a' ∧ y = 'u' ∧ z = 'g' then some 8
  else if x = 's' ∧ y = 'e' ∧ z = 'p' then some 9
  else if x = 'o' ∧ y = 'c' ∧ z = 't' then some 10
  else if x = 'n' ∧ y = 'o' ∧ z = 'v' then some 11
  else if x = 'd' ∧ y = 'e' ∧ z = 'c' then some 12
  else none

/-- Case-insensitive month-abbreviation match (strptime compiles its pattern
with IGNORECASE). -/
def monthNum (a b c : Char) : Option Nat :=
  monthNumLower a.toLower b.toLower c.toLower

/-- Numeric value of an ASCII digit character. -/
def digitVal (c : Char) : Nat := c.toNat - 48

/-- ASCII digit test, the regex class \d (restricted to ASCII). -/
def isDigit09 (c : Char) : Bool := 48 ≤ c.toNat && c.toNat ≤ 57

/-- The regex class [1-9]. -/
def isDigit19 (c : Char) : Bool := 49 ≤ c.toNat && c.toNat ≤ 57

/-- Day-of-month matcher for strptime %d, following the CPython _strptime
regular expression 3[01]|[12]\d|0[1-9]|[1-9], restructured by the first
character; the later alternation branches can never rescue a failed
continuation of an earlier one (a two-digit branch leaves a digit in front of
the literal comma that must follow), so this deterministic choice equals regex
backtracking on this format. Returns the day and the unconsumed characters. -/
def parseDay : List Char → Option (Nat × List Char)
  | [] => none
  | c :: rest0 =>
    if c = '3' then
      match rest0 with
      | d :: rest =>
        if d = '0' then some (30, rest)
        else if d = '1' then some (31, rest)
        else some (3, d :: rest)
      | [] => some (3, [])
    else if c = '0' then
      match rest0 with
      | d :: rest => if isDigit19 d then some (digitVal d, rest) else none
      | [] => none
    else if c = '1' ∨ c = '2' then
      match rest0 with
      | d :: rest =>
        if isDigit09 d then some (digitVal c * 10 + digitVal d, rest)
        else some (digitVal c, d :: rest)
      | [] => some (digitVal c, [])
    else if isDigit19 c then some (digitVal c, rest0)
    else none

/-- Consume one-or-more whitespace characters (the \s+ that strptime compiles
for a literal space in the format); fails when no whitespace is present. -/
def eatWS1 : List Char → Option (List Char)
  | c :: rest => if isPySpace c then some (rest.dropWhile isPySpace) else none
  | [] => none

/-- Leap-year rule used by the Gregorian calendar (datetime). -/
def isLeap (y : Nat) : Bool :=
  y % 4 = 0 && (y % 100 ≠ 0 || y % 400 = 0)

/-- Days in a month (month numbered 1..12). -/
def daysInMonth (m y : Nat) : Nat :=
  if m = 2 then (if isLeap y then 29 else 28)
  else if m = 4 ∨ m = 6 ∨ m = 9 ∨ m = 11 then 30
  else 31

/-- Match exactly four ASCII digits (the strptime %Y group) at the end of
input, giving the year value. -/
def yearDigits4 : List Char → Option Nat
  | [y1, y2, y3, y4] =>
    if isDigit09 y1 ∧ isDigit09 y2 ∧ isDigit09 y3 ∧ isDigit09 y4 then
      some ((digitVal y1 * 10 + digitVal y2) * 100 + digitVal y3 * 10 + digitVal y4)
    else none
  | _ => none

/-- Match the tail ", %Y" of the format after the day: a literal comma,
whitespace, four year digits, end of input. -/
def matchCommaYear : List Char → Option Nat
  | c4 :: rest4 => if c4 = ',' then (eatWS1 rest4).bind yearDigits4 else none
  | [] => none

/-- Match the part of the format after the month: whitespace, day, then the
comma-year tail. Returns (day, year). -/
def matchDayYear (rest : List Char) : Option (Nat × Nat) :=
  (eatWS1 rest).bind fun rest2 =>
    (parseDay rest2).bind fun dr =>
      (matchCommaYear dr.2).bind fun y => some (dr.1, y)

/-- Syntactic match of a character list against the strptime format
"%b %d, %Y": three-letter month abbreviation, whitespace, day (1..31 per the
%d regex), a literal comma, whitespace, exactly four digits, end of input.
Returns (month, day, year). -/
def matchBdYList : List Char → Option (Nat × Nat × Nat)
  | a :: b :: c :: rest =>
    (monthNum a b c).bind fun m =>
      (matchDayYear rest).bind fun dy => some (m, dy.1, dy.2)
  | _ => none

/-- Syntactic strptime match on a string. -/
def matchBdY (s : String) : Option (Nat × Nat × Nat) :=
  matchBdYList s.toList

/-- Model of datetime.strptime(s, "%b %d, %Y"): syntactic match followed by the
calendar validity check the datetime constructor performs (year at least 1, day
within the month); none models the ValueError path. -/
def strptime_bdY (s : String) : Option (Nat × Nat × Nat) :=
  match matchBdY s with
  | some (m, d, y) => if 1 ≤ y ∧ d ≤ daysInMonth m y then some (m, d, y) else none
  | none => none

/-- Zero-pad a number to two digits (strftime %m / %d). -/
def pad2 (n : Nat) : String :=
  if n < 10 then "0" ++ toString n else toString n

/-- Render a year on four digits (strftime %Y for the four-digit years this
format parses). -/
def pad4 (n : Nat) : String :=
  if n < 10 then "000" ++ toString n
  else if n < 100 then "00" ++ toString n
  else if n < 1000 then "0" ++ toString n
  else toString n

/-- Render a parsed date as strftime("%Y-%m-%d") does. -/
def renderISO (m d y : Nat) : String :=
  pad4 y ++ "-" ++ pad2 m ++ "-" ++ pad2 d

/-- Model of convert_date (parse_goodreads.py lines 33-38): reformat the date
on parse success, return the input unchanged on the ValueError path. -/
def convert_date (date_str : String) : String :=
  match strptime_bdY date_str with
  | some (m, d, y) => renderISO m d y
  | none => date_str

example : convert_date "Jan 5, 2023" = "2023-01-05" := by decide
example : convert_date "Feb 29, 2023" = "Feb 29, 2023" := by decide
example : convert_date "Feb 29, 2024" = "2024-02-29" := by decide
example : convert_date "not a date" = "not a date" := by decide
example : convert_date "Dec 31, 1999" = "1999-12-31" := by decide

/-- Abstraction of one review row (a tr.bookalike.review) restricted to the
queries process_review_row performs. An outer none is a failed find on the row
(the field cell, or for tooltip_div and avg_rating_td the element itself);
an inner value is the result of the nested query:
  - title_td / date_started_td / date_read_td / author_td: the nested
    anchor or span, none when absent, otherwise its text;
  - tooltip_div: the data-resource-id attribute of the div.js-tooltipTrigger,
    none when the div lacks that attribute (its subscript raises KeyError);
  - avg_rating_td: the text of the td.field.avg_rating itself;
  - num_pages_td: the nested nobr, none when absent, otherwise its text. -/
structure ReviewRow where
  title_td : Option (Option String)
  date_started_td : Option (Option String)
  date_read_td : Option (Option String)
  tooltip_div : Option (Option String)
  author_td : Option (Option String)
  avg_rating_td : Option String
  num_pages_td : Option (Option String)
deriving DecidableEq, Repr

/-- Model of get_text_or_default (lines 28-30): text of the element stripped,
or the default (always "") when the element is None. -/
def get_text_or_default (element : Option String) : String :=
  match element with
  | some t => pyStrip t
  | none => ""

/-- Calling .find on the result of a failed find: Python raises AttributeError
on None. Models the chains row.find("td", ...).find(...) in lines 77-105. -/
def find_in_cell : Option (Option String) → Except PyExc (Option String)
  | none => .error .attributeError
  | some inner => .ok inner

/-- Goodreads id extraction (lines 86-90): the data-resource-id subscript of
the tooltip div when the div is found (KeyError when the attribute is absent),
"" when the div is not found. -/
def goodreads_id_of : Option (Option String) → Except PyExc String
  | none => .ok ""
  | some none => .error .keyError
  | some (some v) => .ok v

/-- Page-count extraction (lines 99-105): AttributeError when the
td.field.num_pages cell is absent; "" when the nested nobr is absent; else the
first whitespace token of the stripped nobr text, IndexError when there is no
token. -/
def num_pages_of : Option (Option String) → Except PyExc String
  | none => .error .attributeError
  | some none => .ok ""
  | some (some t) =>
    match pySplitWS (get_text_or_default (some t)) with
    | [] => .error .indexError
    | tok :: _ => .ok tok

/-- One normalized output record (the dictionary built in lines 107-115). -/
structure Record where
  goodreadsId : String
  bookTitle : String
  dateStarted : String
  dateRead : String
  author : String
  avgRating : String
  numPages : String
deriving DecidableEq, Repr

/-- Model of process_review_row (lines 75-115), with the field extractions in
source order so that the first raising extraction determines the exception. -/
def process_review_row (row : ReviewRow) : Except PyExc Record := do
  let titleA ← find_in_cell row.title_td
  let book_title := get_text_or_default titleA
  let dsSpan ← find_in_cell row.date_started_td
  let date_started0 := get_text_or_default dsSpan
  let drSpan ← find_in_cell row.date_read_td
  let date_read0 := get_text_or_default drSpan
  let goodreads_id ← goodreads_id_of row.tooltip_div
  let date_started := convert_date date_started0
  let date_read := convert_date date_read0
  let authorA ← find_in_cell row.author_td
  let author := get_text_or_default authorA
  let avg_rating := get_text_or_default row.avg_rating_td
  let num_pages ← num_pages_of row.num_pages_td
  pure {
    goodreadsId := goodreads_id
    bookTitle := book_title
    dateStarted := date_started
    dateRead := date_read
    author := author
    avgRating := avg_rating
    numPages := num_pages
  }

/-- The fieldnames list of lines 135-143, which is both the header row and the
column order of every data row. -/
def headerRow : List String :=
  ["Goodreads ID", "Book Title", "Date Started", "Date Read", "Author",
   "Average Rating", "Number of Pages"]

/-- DictWriter.writerow on the record dictionary: the seven values in
fieldnames order. -/
def recordToRow (r : Record) : List String :=
  [r.goodreadsId, r.bookTitle, r.dateStarted, r.dateRead, r.author,
   r.avgRating, r.numPages]

/-- Model of Python int(s) on the stripped text (line 155): optional sign and
at least one ASCII digit (underscore grouping is not exercised here);
ValueError otherwise. -/
def digitsVal : List Char → Option Nat
  | [] => none
  | l =>
    if l.all Char.isDigit then
      some (l.foldl (fun n c => n * 10 + (c.toNat - 48)) 0)
    else none

/-- Model of the int builtin applied to a page-link label. -/
def pyInt (s : String) : Except PyExc Int :=
  match (pyStrip s).toList with
  | '-' :: rest =>
    match digitsVal rest with
    | some n => .ok (-(n : Int))
    | none => .error .valueError
  | '+' :: rest =>
    match digitsVal rest with
    | some n => .ok (n : Int)
    | none => .error .valueError
  | l =>
    match digitsVal l with
    | some n => .ok (n : Int)
    | none => .error .valueError

/-- Total-page computation of lines 152-158: when the div#reviewPagination is
found (modelled by the list of its anchor texts), take the second-to-last
anchor ([-2] raises IndexError when there are fewer than two), strip it and
apply int; when the div is absent, one page. -/
def total_pages_calc : Option (List String) → Except PyExc Int
  | none => .ok 1
  | some anchors =>
    if 2 ≤ anchors.length then
      pyInt (pyStrip (anchors.getD (anchors.length - 2) ""))
    else .error .indexError

/-- Abstraction of one fetched-and-parsed page: the anchor texts of the
pagination control when present, and the tr.bookalike.review rows. -/
structure Page where
  pagination : Option (List String)
  reviewRows : List ReviewRow
deriving Repr

/-- One browser-export cookie entry as read from cookies.json; the dict.get
defaults of line 63 (hostOnly false, domain "") are folded into the fields. -/
structure Cookie where
  name : String
  value : String
  domain : String
  hostOnly : Bool
deriving DecidableEq, Repr

/-- The filter condition of line 63: keep the cookie when it is not host-only,
or when its domain starts with the string ".goodreads.com" or equals
"www.goodreads.com". -/
def cookieIncluded (c : Cookie) : Bool :=
  !c.hostOnly || (pyStartsWith c.domain ".goodreads.com" || c.domain == "www.goodreads.com")

/-- Python dict assignment d[k] = v on an association list: replace the value
in place when the key exists, append otherwise. -/
def dictInsert (d : List (String × String)) (k v : String) : List (String × String) :=
  if d.any (fun p => p.1 = k) then
    d.map (fun p => if p.1 = k then (k, v) else p)
  else d ++ [(k, v)]

/-- The cookie_dict built by the loop of lines 61-64. -/
def cookie_dict_of (cs : List Cookie) : List (String × String) :=
  cs.foldl (fun d c => if cookieIncluded c then dictInsert d c.name c.value else d) []

/-- The cookie-scope membership the spec asserts: exact host match or a
dot-prefixed domain suffix match against the target host www.goodreads.com.
Stated from the wording of spec.md section 3, for comparison with the
code-derived cookieIncluded. -/
def specCookieScopeMatch (c : Cookie) : Bool :=
  c.domain == "www.goodreads.com"
    || (pyStartsWith c.domain "." && pyEndsWith "www.goodreads.com" c.domain)

/-- Outcome of the JSON parse of cookies.json. -/
inductive JsonError where
  | decodeError
deriving DecidableEq, Repr

/-- Cookie loading of lines 122-131: no file means no cookies; a parse failure
is caught, warned about (the Bool), and leaves cookies at None; otherwise the
parsed list is used. -/
def load_cookies (cookieFile : Option (Except JsonError (List Cookie))) :
    Option (List Cookie) × Bool :=
  match cookieFile with
  | none => (none, false)
  | some (.ok cs) => (some cs, false)
  | some (.error _) => (none, true)

/-- The inner row loop of lines 170-172: process rows in order, writing each
record as it is produced; an exception stops the loop with the records written
so far. -/
def writeRows : List ReviewRow → List (List String) × Option PyExc
  | [] => ([], none)
  | r :: rest =>
    match process_review_row r with
    | .error e => ([], some e)
    | .ok rec =>
      match writeRows rest with
      | (more, err) => (recordToRow rec :: more, err)

/-- The page loop of lines 161-175 over a list of page numbers: fetch each
page, write its rows, stop at the first exception with the rows written so
far. -/
def runPages (fetch : Nat → Except PyExc Page) : List Nat → List (List String) × Option PyExc
  | [] => ([], none)
  | p :: rest =>
    match fetch p with
    | .error e => ([], some e)
    | .ok pg =>
      match writeRows pg.reviewRows with
      | (rs, some e) => (rs, some e)
      | (rs, none) =>
        match runPages fetch rest with
        | (rs2, err2) => (rs ++ rs2, err2)

/-- The except clause of lines 180-186: only an HTTPError is caught (printing
the likely causes and returning False); every other exception propagates. -/
def catchHTTP (e : PyExc) : Except PyExc Bool :=
  if e = .httpError then .ok false else .error e

/-- The with-block body of lines 134-186, after cookie loading: the output file
is opened for writing and the header written before any fetch, so every
outcome yields a file starting with headerRow. The first component is the
final file content, the second the function result (.ok b) or the propagated
exception (.error e). -/
def downloadCore (cookies : Option (List Cookie))
    (fetch : Option (List Cookie) → Nat → Except PyExc Page) :
    List (List String) × Except PyExc Bool :=
  let header := [headerRow]
  match fetch cookies 1 with
  | .error e => (header, catchHTTP e)
  | .ok p1 =>
    match total_pages_calc p1.pagination with
    | .error e => (header, catchHTTP e)
    | .ok tp =>
      match runPages (fetch cookies) (List.range' 1 tp.toNat) with
      | (rows, some e) => (header ++ rows, catchHTTP e)
      | (rows, none) => (header ++ rows, .ok true)

/-- Result of download_and_process_goodreads_data: the output-file content,
the returned value or propagated exception, and whether the cookie warning was
printed. -/
structure RunOutcome where
  file : List (List String)
  result : Except PyExc Bool
  cookieWarning : Bool
deriving Repr

/-- Model of download_and_process_goodreads_data (lines 118-186). The network
is abstracted by fetch: the parsed page for a page number, or the exception
raised by fetch_html for it (fetch_html re-raises every RequestException
unchanged, lines 67-72). -/
def download_and_process_goodreads_data
    (cookieFile : Option (Except JsonError (List Cookie)))
    (fetch : Option (List Cookie) → Nat → Except PyExc Page) : RunOutcome :=
  match load_cookies cookieFile with
  | (cookies, warned) =>
    match downloadCore cookies fetch with
    | (file, result) => { file := file, result := result, cookieWarning := warned }

/-- Content of the output file after a run. The file is opened with mode "w"
(line 134), so the content the file held before the run (prev) is discarded
whatever the run does. -/
def fileAfterRun (prev : List (List String))
    (cookieFile : Option (Except JsonError (List Cookie)))
    (fetch : Option (List Cookie) → Nat → Except PyExc Page) : List (List String) :=
  let _ := prev
  (download_and_process_goodreads_data cookieFile fetch).file

/-- DictReader lookup of the Date Read value on one data row (line 199):
"" when the header has no Date Read column (dict.get default), the cell text
when present, and the AttributeError of None.strip() when the row is shorter
than the header (restval None). -/
def dict_get_date_read (hdr row : List String) : Except PyExc String :=
  match hdr.findIdx? (fun s => s = "Date Read") with
  | none => .ok ""
  | some i =>
    match row.get? i with
    | some v => .ok v
    | none => .error .attributeError

/-- The any(...) generator of line 199 over the data rows: short-circuiting,
propagating the first exception. -/
def anyDateRead (hdr : List String) : List (List String) → Except PyExc Bool
  | [] => .ok false
  | row :: rest =>
    match dict_get_date_read hdr row with
    | .error e => .error e
    | .ok v => if pyStrip v ≠ "" then .ok true else anyDateRead hdr rest

/-- The post-run check of lines 195-210: re-read the file once; print the
advisory exactly when no data row has a non-empty stripped Date Read value;
any exception is caught (printing the could-not-verify warning instead of the
advisory). The file is returned unchanged: the check only reads. -/
def date_read_check (file : List (List String)) : Bool × List (List String) :=
  let checked : Except PyExc Bool :=
    match file with
    | [] => .ok false
    | hdr :: rows => anyDateRead hdr rows
  match checked with
  | .ok b => (!b, file)
  | .error _ => (false, file)

/-- Condition on a row under which the five chained cell lookups of
process_review_row cannot raise: every field cell reached by a nested find is
present. -/
def rowCellsOK (row : ReviewRow) : Bool :=
  row.title_td.isSome && row.date_started_td.isSome && row.date_read_td.isSome
    && row.author_td.isSome && row.num_pages_td.isSome

/-- Condition on a row under which process_review_row raises nothing: cells
present, the tooltip div (when found) carries its attribute, and the nobr
(when found) has at least one whitespace token. -/
def rowOKb (row : ReviewRow) : Bool :=
  rowCellsOK row
    && (match row.tooltip_div with
        | some none => false
        | _ => true)
    && (match row.num_pages_td with
        | some (some t) => !(pySplitWS (get_text_or_default (some t))).isEmpty
        | _ => true)

/-- A review row whose seven cells are all present but whose nested elements
(title anchor, date spans, tooltip div, author anchor, rating text, nobr) are
all absent. -/
def rowInnerMissing : ReviewRow :=
  ⟨some none, some none, some none, none, some none, none, some none⟩

/-- A review row whose title field cell itself is absent (everything else as
in rowInnerMissing). -/
def rowMissingTitleCell : ReviewRow :=
  ⟨none, some none, some none, none, some none, none, some none⟩

/-- Rows written for a list of page numbers when every listed page fetches and
processes cleanly (used to describe partial output files). -/
def pagesRows (fetch : Nat → Except PyExc Page) : List Nat → List (List String)
  | [] => []
  | j :: rest =>
    (match fetch j with
     | .ok pg => (writeRows pg.reviewRows).1
     | .error _ => []) ++ pagesRows fetch rest

/-- Page j fetches successfully and all of its rows process without an
exception. -/
def cleanAt (fetch : Nat → Except PyExc Page) (j : Nat) : Prop :=
  ∃ pg, fetch j = .ok pg ∧ (writeRows pg.reviewRows).2 = none

lemma monthNumLower_bounds {x y z : Char} {m : Nat} (h : monthNumLower x y z = some m) :
    1 ≤ m ∧ m ≤ 12 := by
  unfold monthNumLower at h
  by_cases h1 : x = 'j' ∧ y = 'a' ∧ z = 'n'
  · rw [if_pos h1] at h; injection h with e; omega
  · rw [if_neg h1] at h
    by_cases h2 : x = 'f' ∧ y = 'e' ∧ z = 'b'
    · rw [if_pos h2] at h; injection h with e; omega
    · rw [if_neg h2] at h
      by_cases h3 : x = 'm' ∧ y = 'a' ∧ z = 'r'
      · rw [if_pos h3] at h; injection h with e; omega
      · rw [if_neg h3] at h
        by_cases h4 : x = 'a' ∧ y = 'p' ∧ z = 'r'
        · rw [if_pos h4] at h; injection h with e; omega
        · rw [if_neg h4] at h
          by_cases h5 : x = 'm' ∧ y = 'a' ∧ z = 'y'
          · rw [if_pos h5] at h; injection h with e; omega
          · rw [if_neg h5] at h
            by_cases h6 : x = 'j' ∧ y = 'u' ∧ z = 'n'
            · rw [if_pos h6] at h; injection h with e; omega
            · rw [if_neg h6] at h
              by_cases h7 : x = 'j' ∧ y = 'u' ∧ z = 'l'
              · rw [if_pos h7] at h; injection h with e; omega
              · rw [if_neg h7] at h
                by_cases h8 : x = 'a' ∧ y = 'u' ∧ z = 'g'
                · rw [if_pos h8] at h; injection h with e; omega
                · rw [if_neg h8] at h
                  by_cases h9 : x = 's' ∧ y = 'e' ∧ z = 'p'
                  · rw [if_pos h9] at h; injection h with e; omega
                  · rw [if_neg h9] at h
                    by_cases h10 : x = 'o' ∧ y = 'c' ∧ z = 't'
                    · rw [if_pos h10] at h; injection h with e; omega
                    · rw [if_neg h10] at h
                      by_cases h11 : x = 'n' ∧ y = 'o' ∧ z = 'v'
                      · rw [if_pos h11] at h; injection h with e; omega
                      · rw [if_neg h11] at h
                        by_cases h12 : x = 'd' ∧ y = 'e' ∧ z = 'c'
                        · rw [if_pos h12] at h; injection h with e; omega
                        · rw [if_neg h12] at h
                          exact Option.noConfusion h

lemma monthNum_bounds {a b c : Char} {m : Nat} (h : monthNum a b c = some m) :
    1 ≤ m ∧ m ≤ 12 :=
  monthNumLower_bounds h

lemma digit09_val {c : Char} (h : isDigit09 c = true) : digitVal c ≤ 9 := by
  simp only [isDigit09, Bool.and_eq_true, decide_eq_true_eq] at h
  simp only [digitVal]
  omega

lemma digit19_val {c : Char} (h : isDigit19 c = true) : 1 ≤ digitVal c ∧ digitVal c ≤ 9 := by
  simp only [isDigit19, Bool.and_eq_true, decide_eq_true_eq] at h
  simp only [digitVal]
  omega

lemma parseDay_bounds {l : List Char} {d : Nat} {rest : List Char}
    (h : parseDay l = some (d, rest)) : 1 ≤ d ∧ d ≤ 31 := by
  cases l with
  | nil => exact Option.noConfusion h
  | cons c rest0 =>
    cases rest0 with
    | nil =>
      simp only [parseDay] at h
      by_cases hc3 : c = '3'
      · rw [if_pos hc3] at h
        injection h with hp
        injection hp with h1 h2
        omega
      · rw [if_neg hc3] at h
        by_cases hc0 : c = '0'
        · rw [if_pos hc0] at h
          exact Option.noConfusion h
        · rw [if_neg hc0] at h
          by_cases hc12 : c = '1' ∨ c = '2'
          · rw [if_pos hc12] at h
            injection h with hp
            injection hp with h1 h2
            have hdv : digitVal c = 1 ∨ digitVal c = 2 := by
              rcases hc12 with rfl | rfl
              · exact Or.inl rfl
              · exact Or.inr rfl
            omega
          · rw [if_neg hc12] at h
            by_cases h19 : isDigit19 c = true
            · rw [if_pos h19] at h
              injection h with hp
              injection hp with h1 h2
              have := digit19_val h19
              omega
            · rw [if_neg h19] at h
              exact Option.noConfusion h
    | cons d2 rest2 =>
      simp only [parseDay] at h
      by_cases hc3 : c = '3'
      · rw [if_pos hc3] at h
        by_cases hd0 : d2 = '0'
        · rw [if_pos hd0] at h
          injection h with hp
          injection hp with h1 h2
          omega
        · rw [if_neg hd0] at h
          by_cases hd1 : d2 = '1'
          · rw [if_pos hd1] at h
            injection h with hp
            injection hp with h1 h2
            omega
          · rw [if_neg hd1] at h
            injection h with hp
            injection hp with h1 h2
            omega
      · rw [if_neg hc3] at h
        by_cases hc0 : c = '0'
        · rw [if_pos hc0] at h
          by_cases h19 : isDigit19 d2 = true
          · rw [if_pos h19] at h
            injection h with hp
            injection hp with h1 h2
            have := digit19_val h19
            omega
          · rw [if_neg h19] at h
            exact Option.noConfusion h
        · rw [if_neg hc0] at h
          by_cases hc12 : c = '1' ∨ c = '2'
          · rw [if_pos hc12] at h
            have hdv : digitVal c = 1 ∨ digitVal c = 2 := by
              rcases hc12 with rfl | rfl
              · exact Or.inl rfl
              · exact Or.inr rfl
            by_cases h09 : isDigit09 d2 = true
            · rw [if_pos h09] at h
              injection h with hp
              injection hp with h1 h2
              have := digit09_val h09
              omega
            · rw [if_neg h09] at h
              injection h with hp
              injection hp with h1 h2
              omega
          · rw [if_neg hc12] at h
            by_cases h19 : isDigit19 c = true
            · rw [if_pos h19] at h
              injection h with hp
              injection hp with h1 h2
              have := digit19_val h19
              omega
            · rw [if_neg h19] at h
              exact Option.noConfusion h

lemma yearDigits4_bound {L : List Char} {y : Nat} (h : yearDigits4 L = some y) :
    y ≤ 9999 := by
  cases L with
  | nil => exact Option.noConfusion h
  | cons y1 t1 =>
    cases t1 with
    | nil => exact Option.noConfusion h
    | cons y2 t2 =>
      cases t2 with
      | nil => exact Option.noConfusion h
      | cons y3 t3 =>
        cases t3 with
        | nil => exact Option.noConfusion h
        | cons y4 t4 =>
          cases t4 with
          | cons y5 t5 => exact Option.noConfusion h
          | nil =>
            simp only [yearDigits4] at h
            by_cases hdig : isDigit09 y1 = true ∧ isDigit09 y2 = true
                ∧ isDigit09 y3 = true ∧ isDigit09 y4 = true
            · rw [if_pos hdig] at h
              obtain ⟨h1, h2, h3, h4⟩ := hdig
              have v1 := digit09_val h1
              have v2 := digit09_val h2
              have v3 := digit09_val h3
              have v4 := digit09_val h4
              injection h with e
              omega
            · rw [if_neg hdig] at h
              exact Option.noConfusion h

lemma matchCommaYear_bound {L : List Char} {y : Nat} (h : matchCommaYear L = some y) :
    y ≤ 9999 := by
  cases L with
  | nil => exact Option.noConfusion h
  | cons c4 rest4 =>
    simp only [matchCommaYear] at h
    by_cases hc4 : c4 = ','
    · rw [if_pos hc4] at h
      cases hw : eatWS1 rest4 with
      | none =>
        rw [hw, Option.none_bind] at h
        exact Option.noConfusion h
      | some rest5 =>
        rw [hw, Option.some_bind] at h
        exact yearDigits4_bound h
    · rw [if_neg hc4] at h
      exact Option.noConfusion h

lemma matchDayYear_bounds {rest : List Char} {d y : Nat}
    (h : matchDayYear rest = some (d, y)) :
    1 ≤ d ∧ d ≤ 31 ∧ y ≤ 9999 := by
  unfold matchDayYear at h
  cases hw : eatWS1 rest with
  | none =>
    rw [hw, Option.none_bind] at h
    exact Option.noConfusion h
  | some rest2 =>
    simp only [hw, Option.some_bind] at h
    cases hd : parseDay rest2 with
    | none =>
      rw [hd, Option.none_bind] at h
      exact Option.noConfusion h
    | some dr =>
      obtain ⟨d0, rest3⟩ := dr
      simp only [hd, Option.some_bind] at h
      cases hy : matchCommaYear rest3 with
      | none =>
        rw [hy, Option.none_bind] at h
        exact Option.noConfusion h
      | some y0 =>
        simp only [hy, Option.some_bind] at h
        injection h with hp
        injection hp with e1 e2
        have hdb := parseDay_bounds hd
        have hyb := matchCommaYear_bound hy
        omega

lemma matchBdYList_bounds {L : List Char} {m d y : Nat}
    (h : matchBdYList L = some (m, d, y)) :
    1 ≤ m ∧ m ≤ 12 ∧ 1 ≤ d ∧ d ≤ 31 ∧ y ≤ 9999 := by
  cases L with
  | nil => exact Option.noConfusion h
  | cons a t1 =>
    cases t1 with
    | nil => exact Option.noConfusion h
    | cons b t2 =>
      cases t2 with
      | nil => exact Option.noConfusion h
      | cons c rest =>
        simp only [matchBdYList] at h
        cases hm : monthNum a b c with
        | none =>
          rw [hm, Option.none_bind] at h
          exact Option.noConfusion h
        | some m0 =>
          simp only [hm, Option.some_bind] at h
          cases hdy : matchDayYear rest with
          | none =>
            rw [hdy, Option.none_bind] at h
            exact Option.noConfusion h
          | some dy =>
            obtain ⟨d0, y0⟩ := dy
            simp only [hdy, Option.some_bind] at h
            injection h with hp
            injection hp with e1 hp2
            injection hp2 with e2 e3
            have hmb := monthNum_bounds hm
            have hdb := matchDayYear_bounds hdy
            omega

lemma matchBdY_bounds {s : String} {m d y : Nat} (h : matchBdY s = some (m, d, y)) :
    1 ≤ m ∧ m ≤ 12 ∧ 1 ≤ d ∧ d ≤ 31 ∧ y ≤ 9999 :=
  matchBdYList_bounds h

lemma strptime_bdY_spec {s : String} {m d y : Nat}
    (h : strptime_bdY s = some (m, d, y)) :
    matchBdY s = some (m, d, y) ∧ 1 ≤ y ∧ d ≤ daysInMonth m y := by
  unfold strptime_bdY at h
  cases hm : matchBdY s with
  | none => rw [hm] at h; exact Option.noConfusion h
  | some t =>
    obtain ⟨m0, d0, y0⟩ := t
    simp only [hm] at h
    by_cases hv : 1 ≤ y0 ∧ d0 ≤ daysInMonth m0 y0
    · rw [if_pos hv] at h
      injection h with hp
      injection hp with e1 hp2
      injection hp2 with e2 e3
      subst e1; subst e2; subst e3
      exact ⟨rfl, hv.1, hv.2⟩
    · rw [if_neg hv] at h
      exact Option.noConfusion h

/-- C2: convert_date matches its input against the fixed strptime pattern
abbreviated-month day, four-digit year; on success it returns the date
re-rendered as YYYY-MM-DD (four-digit year, zero-padded month and day, e.g.
Jan 5, 2023 maps to 2023-01-05); on any parse failure it returns the original
string unchanged. The embedding is a total function, so no exception escapes
and no row is dropped. -/
theorem c2_convert_date :
    (∀ s : String, strptime_bdY s = none → convert_date s = s)
    ∧ (∀ s : String, ∀ m d y : Nat, strptime_bdY s = some (m, d, y) →
        convert_date s = renderISO m d y
          ∧ 1 ≤ m ∧ m ≤ 12 ∧ 1 ≤ d ∧ d ≤ 31 ∧ 1 ≤ y ∧ y ≤ 9999)
    ∧ convert_date "Jan 5, 2023" = "2023-01-05" := by
  refine ⟨?_, ?_, by decide⟩
  · intro s h
    unfold convert_date
    rw [h]
  · intro s m d y h
    have hs := strptime_bdY_spec h
    have hb := matchBdY_bounds hs.1
    constructor
    · unfold convert_date
      rw [h]
    · exact ⟨hb.1, hb.2.1, hb.2.2.1, hb.2.2.2.1, hs.2.1, hb.2.2.2.2⟩

/-- Witness for c2_convert_date: the round-trip example and one unparseable
input passed through unchanged. -/
theorem c2_convert_date_witness :
    convert_date "Jan 5, 2023" = "2023-01-05"
      ∧ convert_date "May 32, 2020" = "May 32, 2020" :=
  ⟨c2_convert_date.2.2, c2_convert_date.1 "May 32, 2020" (by decide)⟩

lemma except_bind_ok {ε α β : Type} (a : α) (f : α → Except ε β) :
    (Except.ok a >>= f) = f a := rfl

lemma except_bind_err {ε α β : Type} (e : ε) (f : α → Except ε β) :
    ((Except.error e : Except ε α) >>= f) = Except.error e := rfl

lemma process_ok_of_rowOKb {row : ReviewRow} (h : rowOKb row = true) :
    ∃ rec, process_review_row row = .ok rec
      ∧ (row.title_td = some none → rec.bookTitle = "")
      ∧ (row.date_started_td = some none → rec.dateStarted = "")
      ∧ (row.date_read_td = some none → rec.dateRead = "")
      ∧ (row.tooltip_div = none → rec.goodreadsId = "")
      ∧ (row.author_td = some none → rec.author = "")
      ∧ (row.avg_rating_td = none → rec.avgRating = "")
      ∧ (row.num_pages_td = some none → rec.numPages = "") := by
  simp only [rowOKb, rowCellsOK, Bool.and_eq_true, Option.isSome_iff_exists] at h
  obtain ⟨⟨⟨⟨⟨⟨hta, hds⟩, hdr⟩, hau⟩, hnp⟩, htt⟩, hnb⟩ := h
  obtain ⟨ta, hta⟩ := hta
  obtain ⟨ds, hds⟩ := hds
  obtain ⟨dr, hdr⟩ := hdr
  obtain ⟨au, hau⟩ := hau
  obtain ⟨np, hnp⟩ := hnp
  cases htd : row.tooltip_div with
  | some o =>
    cases o with
    | none => rw [htd] at htt; exact absurd htt (by simp)
    | some gid =>
      cases np with
      | none =>
        refine ⟨Record.mk gid (get_text_or_default ta)
            (convert_date (get_text_or_default ds))
            (convert_date (get_text_or_default dr))
            (get_text_or_default au)
            (get_text_or_default row.avg_rating_td)
            "", ?_, ?_⟩
        · simp only [process_review_row, hta, hds, hdr, htd, hau, hnp,
            find_in_cell, goodreads_id_of, num_pages_of, except_bind_ok]
          rfl
        · refine ⟨?_, ?_, ?_, ?_, ?_, ?_, ?_⟩ <;> intro h0 <;>
            first
              | exact Option.noConfusion h0
              | (rw [hta] at h0; injection h0 with e; subst e; rfl)
              | (rw [hds] at h0; injection h0 with e; subst e; rfl)
              | (rw [hdr] at h0; injection h0 with e; subst e; rfl)
              | (rw [hau] at h0; injection h0 with e; subst e; rfl)
              | (rw [h0]; rfl)
              | rfl
      | some t =>
        rw [hnp] at hnb
        simp only [Bool.not_eq_true'] at hnb
        cases hsp : pySplitWS (get_text_or_default (some t)) with
        | nil => rw [hsp] at hnb; simp at hnb
        | cons tok toks =>
          refine ⟨Record.mk gid (get_text_or_default ta)
              (convert_date (get_text_or_default ds))
              (convert_date (get_text_or_default dr))
              (get_text_or_default au)
              (get_text_or_default row.avg_rating_td)
              tok, ?_, ?_⟩
          · simp only [process_review_row, hta, hds, hdr, htd, hau, hnp,
              find_in_cell, goodreads_id_of, num_pages_of, hsp, except_bind_ok]
            rfl
          · refine ⟨?_, ?_, ?_, ?_, ?_, ?_, ?_⟩ <;> intro h0 <;>
              first
                | exact Option.noConfusion h0
                | (rw [h0] at hnp; injection hnp with e; exact Option.noConfusion e)
                | (rw [hta] at h0; injection h0 with e; subst e; rfl)
                | (rw [hds] at h0; injection h0 with e; subst e; rfl)
                | (rw [hdr] at h0; injection h0 with e; subst e; rfl)
                | (rw [hau] at h0; injection h0 with e; subst e; rfl)
                | (rw [h0]; rfl)
                | rfl
  | none =>
    cases np with
    | none =>
      refine ⟨Record.mk "" (get_text_or_default ta)
          (convert_date (get_text_or_default ds))
          (convert_date (get_text_or_default dr))
          (get_text_or_default au)
          (get_text_or_default row.avg_rating_td)
          "", ?_, ?_⟩
      · simp only [process_review_row, hta, hds, hdr, htd, hau, hnp,
          find_in_cell, goodreads_id_of, num_pages_of, except_bind_ok]
        rfl
      · refine ⟨?_, ?_, ?_, ?_, ?_, ?_, ?_⟩ <;> intro h0 <;>
          first
            | (rw [hta] at h0; injection h0 with e; subst e; rfl)
            | (rw [hds] at h0; injection h0 with e; subst e; rfl)
            | (rw [hdr] at h0; injection h0 with e; subst e; rfl)
            | (rw [hau] at h0; injection h0 with e; subst e; rfl)
            | (rw [h0]; rfl)
            | rfl
    | some t =>
      rw [hnp] at hnb
      simp only [Bool.not_eq_true'] at hnb
      cases hsp : pySplitWS (get_text_or_default (some t)) with
      | nil => rw [hsp] at hnb; simp at hnb
      | cons tok toks =>
        refine ⟨Record.mk "" (get_text_or_default ta)
            (convert_date (get_text_or_default ds))
            (convert_date (get_text_or_default dr))
            (get_text_or_default au)
            (get_text_or_default row.avg_rating_td)
            tok, ?_, ?_⟩
        · simp only [process_review_row, hta, hds, hdr, htd, hau, hnp,
            find_in_cell, goodreads_id_of, num_pages_of, hsp, except_bind_ok]
          rfl
        · refine ⟨?_, ?_, ?_, ?_, ?_, ?_, ?_⟩ <;> intro h0 <;>
            first
              | (rw [h0] at hnp; injection hnp with e; exact Option.noConfusion e)
              | (rw [hta] at h0; injection h0 with e; subst e; rfl)
              | (rw [hds] at h0; injection h0 with e; subst e; rfl)
              | (rw [hdr] at h0; injection h0 with e; subst e; rfl)
              | (rw [hau] at h0; injection h0 with e; subst e; rfl)
              | (rw [h0]; rfl)
              | rfl

/-- C1 counterexample: a review row whose title field cell is absent makes
process_review_row raise AttributeError instead of yielding a record with an
empty title, and the exception aborts the page: a following well-formed row is
not emitted. This refutes the claim that a row missing the field cell itself
degrades to empty strings and that the remaining rows are still emitted. -/
theorem c1_counterexample :
    process_review_row rowMissingTitleCell = .error .attributeError
      ∧ writeRows [rowMissingTitleCell, rowInnerMissing] = ([], some .attributeError) :=
  ⟨rfl, rfl⟩

/-- C1 (amended): when every field cell of each row is present, the tooltip
div (when found) carries its resource-id attribute, and the page-count nobr
(when found) has at least one whitespace token, every row produces exactly one
record, each absent inner element degrading independently to the empty string,
and all rows of the page are emitted; a row missing a field cell itself
instead raises AttributeError and aborts the page (see the counterexample). -/
theorem c1_rows_with_cells_degrade (rows : List ReviewRow)
    (hall : ∀ row ∈ rows, rowOKb row = true) :
    (writeRows rows).2 = none
      ∧ (writeRows rows).1.length = rows.length
      ∧ ∀ row ∈ rows, ∃ rec, process_review_row row = .ok rec
          ∧ (row.title_td = some none → rec.bookTitle = "")
          ∧ (row.date_started_td = some none → rec.dateStarted = "")
          ∧ (row.date_read_td = some none → rec.dateRead = "")
          ∧ (row.tooltip_div = none → rec.goodreadsId = "")
          ∧ (row.author_td = some none → rec.author = "")
          ∧ (row.avg_rating_td = none → rec.avgRating = "")
          ∧ (row.num_pages_td = some none → rec.numPages = "") := by
  revert hall
  induction rows with
  | nil =>
    intro hall
    exact ⟨rfl, rfl, fun row hr => absurd hr (List.not_mem_nil row)⟩
  | cons r rest ih =>
    intro hall
    obtain ⟨rec, hrec, hdeg⟩ := process_ok_of_rowOKb (hall r (List.mem_cons_self r rest))
    have ihall : ∀ row ∈ rest, rowOKb row = true :=
      fun row hm => hall row (List.mem_cons_of_mem r hm)
    obtain ⟨ih1, ih2, ih3⟩ := ih ihall
    rcases hwr : writeRows rest with ⟨more, err⟩
    rw [hwr] at ih1 ih2
    have h2 : writeRows (r :: rest) = (recordToRow rec :: more, err) := by
      simp only [writeRows, hrec, hwr]
    rw [h2]
    have ih2n : more.length = rest.length := ih2
    refine ⟨ih1, ?_, ?_⟩
    · simp only [List.length_cons]
      omega
    · intro row hr
      rcases List.mem_cons.mp hr with rfl | hr2
      · exact ⟨rec, hrec, hdeg⟩
      · exact ih3 row hr2

/-- Witness for c1_rows_with_cells_degrade on a one-row page whose inner
elements are all missing. -/
theorem c1_rows_with_cells_degrade_witness :
    (writeRows [rowInnerMissing]).2 = none
      ∧ (writeRows [rowInnerMissing]).1.length = [rowInnerMissing].length
      ∧ ∀ row ∈ [rowInnerMissing], ∃ rec, process_review_row row = .ok rec
          ∧ (row.title_td = some none → rec.bookTitle = "")
          ∧ (row.date_started_td = some none → rec.dateStarted = "")
          ∧ (row.date_read_td = some none → rec.dateRead = "")
          ∧ (row.tooltip_div = none → rec.goodreadsId = "")
          ∧ (row.author_td = some none → rec.author = "")
          ∧ (row.avg_rating_td = none → rec.avgRating = "")
          ∧ (row.num_pages_td = some none → rec.numPages = "") :=
  c1_rows_with_cells_degrade [rowInnerMissing] (by decide)

lemma stringMk_reverse_ne_empty {acc : List Char} (ha : ¬acc.isEmpty = true) :
    String.mk acc.reverse ≠ "" := by
  intro he
  have hd : acc.reverse = ([] : List Char) := congrArg String.data he
  have hacc : acc = [] := List.reverse_eq_nil_iff.mp hd
  subst hacc
  exact ha rfl

lemma mem_splitWSAux_ne_empty :
    ∀ (cs acc : List Char) (t : String), t ∈ splitWSAux cs acc → t ≠ "" := by
  intro cs
  induction cs with
  | nil =>
    intro acc t ht
    simp only [splitWSAux] at ht
    by_cases ha : acc.isEmpty = true
    · rw [if_pos ha] at ht
      exact absurd ht (List.not_mem_nil t)
    · rw [if_neg ha] at ht
      rw [List.mem_singleton.mp ht]
      exact stringMk_reverse_ne_empty ha
  | cons c cs2 ih =>
    intro acc t ht
    simp only [splitWSAux] at ht
    by_cases hsp : isPySpace c = true
    · rw [if_pos hsp] at ht
      by_cases ha : acc.isEmpty = true
      · rw [if_pos ha] at ht
        exact ih [] t ht
      · rw [if_neg ha] at ht
        rcases List.mem_cons.mp ht with rfl | ht2
        · exact stringMk_reverse_ne_empty ha
        · exact ih [] t ht2
    · rw [if_neg hsp] at ht
      exact ih (c :: acc) t ht

lemma pySplitWS_head_ne_empty {s tok : String} {toks : List String}
    (h : pySplitWS s = tok :: toks) : tok ≠ "" := by
  have hm : tok ∈ pySplitWS s := by
    rw [h]
    exact List.mem_cons_self tok toks
  exact mem_splitWSAux_ne_empty s.toList [] tok hm

/-- C10: on a row whose earlier field cells are present (so that the earlier
extractions do not raise first), a page-count cell whose nobr element is found
but whose text strips to nothing makes process_review_row raise IndexError
(the [0] subscript on an empty token list); conversely a produced record
carries an empty page count only when the nobr element was absent entirely. -/
theorem c10_num_pages_empty_token :
    (∀ (row : ReviewRow) (t : String),
        row.title_td.isSome = true → row.date_started_td.isSome = true →
        row.date_read_td.isSome = true → row.author_td.isSome = true →
        row.tooltip_div ≠ some none →
        row.num_pages_td = some (some t) → pyStrip t = "" →
        process_review_row row = .error .indexError)
    ∧ (∀ (row : ReviewRow) (rec : Record),
        process_review_row row = .ok rec → rec.numPages = "" →
        row.num_pages_td = some none) := by
  constructor
  · intro row t h1 h2 h3 h4 h5 h6 h7
    obtain ⟨ta, hta⟩ := Option.isSome_iff_exists.mp h1
    obtain ⟨ds, hds⟩ := Option.isSome_iff_exists.mp h2
    obtain ⟨dr, hdr⟩ := Option.isSome_iff_exists.mp h3
    obtain ⟨au, hau⟩ := Option.isSome_iff_exists.mp h4
    have hsplit : pySplitWS (get_text_or_default (some t)) = [] := by
      simp only [get_text_or_default, h7]
      rfl
    cases htd : row.tooltip_div with
    | none =>
      simp only [process_review_row, hta, hds, hdr, htd, hau, h6, find_in_cell,
        goodreads_id_of, num_pages_of, hsplit, except_bind_ok, except_bind_err]
    | some o =>
      cases o with
      | none => exact absurd htd h5
      | some gid =>
        simp only [process_review_row, hta, hds, hdr, htd, hau, h6, find_in_cell,
          goodreads_id_of, num_pages_of, hsplit, except_bind_ok, except_bind_err]
  · intro row rec h hne
    cases hta : row.title_td with
    | none =>
      simp only [process_review_row, hta, find_in_cell, except_bind_err] at h
      exact Except.noConfusion h
    | some ta =>
      cases hds : row.date_started_td with
      | none =>
        simp only [process_review_row, hta, hds, find_in_cell, except_bind_ok,
          except_bind_err] at h
        exact Except.noConfusion h
      | some ds =>
        cases hdr : row.date_read_td with
        | none =>
          simp only [process_review_row, hta, hds, hdr, find_in_cell,
            except_bind_ok, except_bind_err] at h
          exact Except.noConfusion h
        | some dr =>
          cases htd : row.tooltip_div with
          | some o =>
            cases o with
            | none =>
              simp only [process_review_row, hta, hds, hdr, htd, find_in_cell,
                goodreads_id_of, except_bind_ok, except_bind_err] at h
              exact Except.noConfusion h
            | some gid =>
              cases hau : row.author_td with
              | none =>
                simp only [process_review_row, hta, hds, hdr, htd, hau,
                  find_in_cell, goodreads_id_of, except_bind_ok, except_bind_err] at h
                exact Except.noConfusion h
              | some au =>
                cases hnp : row.num_pages_td with
                | none =>
                  simp only [process_review_row, hta, hds, hdr, htd, hau, hnp,
                    find_in_cell, goodreads_id_of, num_pages_of, except_bind_ok,
                    except_bind_err] at h
                  exact Except.noConfusion h
                | some o2 =>
                  cases o2 with
                  | none => exact rfl
                  | some t =>
                    cases hsp : pySplitWS (get_text_or_default (some t)) with
                    | nil =>
                      simp only [process_review_row, hta, hds, hdr, htd, hau, hnp,
                        hsp, find_in_cell, goodreads_id_of, num_pages_of,
                        except_bind_ok, except_bind_err] at h
                      exact Except.noConfusion h
                    | cons tok toks =>
                      simp only [process_review_row, hta, hds, hdr, htd, hau, hnp,
                        hsp, find_in_cell, goodreads_id_of, num_pages_of,
                        except_bind_ok] at h
                      injection h with hrec
                      rw [← hrec] at hne
                      have htok : tok = "" := hne
                      exact absurd htok (pySplitWS_head_ne_empty hsp)
          | none =>
            cases hau : row.author_td with
            | none =>
              simp only [process_review_row, hta, hds, hdr, htd, hau,
                find_in_cell, goodreads_id_of, except_bind_ok, except_bind_err] at h
              exact Except.noConfusion h
            | some au =>
              cases hnp : row.num_pages_td with
              | none =>
                simp only [process_review_row, hta, hds, hdr, htd, hau, hnp,
                  find_in_cell, goodreads_id_of, num_pages_of, except_bind_ok,
                  except_bind_err] at h
                exact Except.noConfusion h
              | some o2 =>
                cases o2 with
                | none => exact rfl
                | some t =>
                  cases hsp : pySplitWS (get_text_or_default (some t)) with
                  | nil =>
                    simp only [process_review_row, hta, hds, hdr, htd, hau, hnp,
                      hsp, find_in_cell, goodreads_id_of, num_pages_of,
                      except_bind_ok, except_bind_err] at h
                    exact Except.noConfusion h
                  | cons tok toks =>
                    simp only [process_review_row, hta, hds, hdr, htd, hau, hnp,
                      hsp, find_in_cell, goodreads_id_of, num_pages_of,
                      except_bind_ok] at h
                    injection h with hrec
                    rw [← hrec] at hne
                    have htok : tok = "" := hne
                    exact absurd htok (pySplitWS_head_ne_empty hsp)

/-- Witness for c10_num_pages_empty_token: a whitespace-only nobr raises
IndexError; a record built from an absent nobr has an empty page count. -/
theorem c10_num_pages_empty_token_witness :
    process_review_row
        ⟨some none, some none, some none, none, some none, none, some (some "  ")⟩
        = .error .indexError
      ∧ rowInnerMissing.num_pages_td = some none :=
  ⟨c10_num_pages_empty_token.1
      ⟨some none, some none, some none, none, some none, none, some (some "  ")⟩
      "  " (by decide) (by decide) (by decide) (by decide) (by decide) rfl (by decide),
   c10_num_pages_empty_token.2 rowInnerMissing
      ⟨"", "", "", "", "", "", ""⟩ rfl rfl⟩

lemma runPages_cons_clean {fetch : Nat → Except PyExc Page} {j : Nat} {js : List Nat}
    {pg : Page} (hpg : fetch j = .ok pg) (hcl : (writeRows pg.reviewRows).2 = none) :
    runPages fetch (j :: js) =
      ((writeRows pg.reviewRows).1 ++ (runPages fetch js).1, (runPages fetch js).2) := by
  rcases hwr : writeRows pg.reviewRows with ⟨rs, err⟩
  rw [hwr] at hcl
  have herr : err = none := hcl
  subst herr
  rcases hrp : runPages fetch js with ⟨rs2, err2⟩
  simp only [runPages, hpg, hwr, hrp]

lemma runPages_fail_head {fetch : Nat → Except PyExc Page} {k : Nat} {js : List Nat}
    {e : PyExc} (hk : fetch k = .error e) :
    runPages fetch (k :: js) = ([], some e) := by
  simp only [runPages, hk]

lemma runPages_append_clean {fetch : Nat → Except PyExc Page} (js1 js2 : List Nat)
    (h : ∀ j ∈ js1, cleanAt fetch j) :
    runPages fetch (js1 ++ js2) =
      (pagesRows fetch js1 ++ (runPages fetch js2).1, (runPages fetch js2).2) := by
  induction js1 with
  | nil =>
    rcases hrp : runPages fetch js2 with ⟨rs2, err2⟩
    simp [pagesRows, hrp]
  | cons j rest ih =>
    obtain ⟨pg, hpg, hcl⟩ := h j (List.mem_cons_self j rest)
    have ihr := ih (fun j2 hm => h j2 (List.mem_cons_of_mem j hm))
    rw [List.cons_append, runPages_cons_clean hpg hcl, ihr]
    simp only [pagesRows, hpg, List.append_assoc]

lemma runPages_all_clean {fetch : Nat → Except PyExc Page} (js : List Nat)
    (h : ∀ j ∈ js, cleanAt fetch j) :
    runPages fetch js = (pagesRows fetch js, none) := by
  have h2 := runPages_append_clean js [] h
  rw [List.append_nil] at h2
  rw [h2]
  simp [runPages, pagesRows]

lemma download_fail_at {cookieFile : Option (Except JsonError (List Cookie))}
    {fetch : Option (List Cookie) → Nat → Except PyExc Page} {k : Nat} {e : PyExc}
    (hk : 1 ≤ k)
    (hfail : fetch (load_cookies cookieFile).1 k = .error e)
    (hclean : ∀ j, 1 ≤ j → j < k → cleanAt (fetch (load_cookies cookieFile).1) j)
    (hfirst : k = 1 ∨ ∃ p1 tp, fetch (load_cookies cookieFile).1 1 = .ok p1
        ∧ total_pages_calc p1.pagination = .ok tp ∧ (k : Int) ≤ tp) :
    download_and_process_goodreads_data cookieFile fetch =
      { file := headerRow ::
          pagesRows (fetch (load_cookies cookieFile).1) (List.range' 1 (k - 1)),
        result := catchHTTP e,
        cookieWarning := (load_cookies cookieFile).2 } := by
  rcases hlc : load_cookies cookieFile with ⟨cks, warned⟩
  rw [hlc] at hfail hclean
  by_cases hk1 : k = 1
  · subst hk1
    rcases hfirst with _ | ⟨p1, tp, hp1, htp, hktp⟩
    · simp only [download_and_process_goodreads_data, downloadCore, hlc, hfail]
      rfl
    · rw [hlc] at hp1
      rw [hp1] at hfail
      exact Except.noConfusion hfail
  · rcases hfirst with hcontra | ⟨p1, tp, hp1, htp, hktp⟩
    · exact absurd hcontra hk1
    · rw [hlc] at hp1
      have htpk : k ≤ tp.toNat := by omega
      have hsplit : List.range' 1 tp.toNat
          = List.range' 1 (k - 1) ++ (k :: List.range' (k + 1) (tp.toNat - k)) := by
        have h1 : List.range' 1 (k - 1) ++ List.range' (1 + (k - 1)) (tp.toNat - (k - 1))
            = List.range' 1 ((tp.toNat - (k - 1)) + (k - 1)) := List.range'_append_1 _ _ _
        have e1 : 1 + (k - 1) = k := by omega
        have e2 : (tp.toNat - (k - 1)) + (k - 1) = tp.toNat := by omega
        have e3 : tp.toNat - (k - 1) = (tp.toNat - k) + 1 := by omega
        rw [e1, e2, e3] at h1
        rw [← h1, List.range'_succ]
      have hcl1 : ∀ j ∈ List.range' 1 (k - 1), cleanAt (fetch cks) j := by
        intro j hj
        have hj2 := List.mem_range'_1.mp hj
        exact hclean j hj2.1 (by omega)
      have hrun : runPages (fetch cks) (List.range' 1 tp.toNat)
          = (pagesRows (fetch cks) (List.range' 1 (k - 1)), some e) := by
        rw [hsplit, runPages_append_clean _ _ hcl1, runPages_fail_head hfail]
        simp
      simp only [download_and_process_goodreads_data, downloadCore, hlc, hp1, htp, hrun]
      rfl

/-- C3: the total page count is computed once, from the first page: with a
pagination control present it is the integer value of the second-to-last
page-link label (so labels 1, 2, 3, next give 3, see the witness); with the
control absent it defaults to 1 and the run processes exactly that one page
and succeeds. -/
theorem c3_total_pages :
    (∀ (labels : List String) (n : Int), 2 ≤ labels.length →
        pyInt (pyStrip (labels.getD (labels.length - 2) "")) = .ok n →
        total_pages_calc (some labels) = .ok n)
    ∧ total_pages_calc none = .ok 1
    ∧ (∀ (cookieFile : Option (Except JsonError (List Cookie)))
        (fetch : Option (List Cookie) → Nat → Except PyExc Page) (p1 : Page),
        fetch (load_cookies cookieFile).1 1 = .ok p1 →
        p1.pagination = none →
        (writeRows p1.reviewRows).2 = none →
        download_and_process_goodreads_data cookieFile fetch =
          { file := headerRow :: (writeRows p1.reviewRows).1,
            result := .ok true,
            cookieWarning := (load_cookies cookieFile).2 }) := by
  refine ⟨?_, rfl, ?_⟩
  · intro labels n hlen hint
    have hred : total_pages_calc (some labels)
        = if 2 ≤ labels.length then pyInt (pyStrip (labels.getD (labels.length - 2) ""))
          else .error .indexError := rfl
    rw [hred, if_pos hlen]
    exact hint
  · intro cookieFile fetch p1 hp1 hpag hcl
    rcases hlc : load_cookies cookieFile with ⟨cks, warned⟩
    rw [hlc] at hp1
    have htp : total_pages_calc p1.pagination = .ok 1 := by rw [hpag]; rfl
    have hone : List.range' 1 (Int.toNat 1) = [1] := rfl
    have hrun : runPages (fetch cks) [1]
        = ((writeRows p1.reviewRows).1, none) := by
      rw [runPages_cons_clean hp1 hcl]
      simp [runPages]
    simp only [download_and_process_goodreads_data, downloadCore, hlc, hp1, htp,
      hone, hrun]
    rfl

/-- Witness for c3_total_pages: the spec examples, page links 1, 2, 3, next
give a count of 3; no pagination control gives 1 and a one-page run that
emits only that page. -/
theorem c3_total_pages_witness :
    total_pages_calc (some ["1", "2", "3", "next"]) = .ok 3
      ∧ total_pages_calc none = .ok 1
      ∧ download_and_process_goodreads_data none (fun _ _ => .ok ⟨none, []⟩)
        = { file := [headerRow], result := .ok true, cookieWarning := false } :=
  ⟨c3_total_pages.1 ["1", "2", "3", "next"] 3 (by decide) rfl,
   c3_total_pages.2.1,
   c3_total_pages.2.2 none (fun _ _ => .ok ⟨none, []⟩) ⟨none, []⟩ rfl rfl rfl⟩

/-- C4 counterexample: a timeout on the first fetch is not caught anywhere
(the orchestration catches only HTTPError), so the exception propagates to the
operator as a raw error rather than being rendered as a message. -/
theorem c4_counterexample :
    download_and_process_goodreads_data none (fun _ _ => .error .timeoutError)
      = { file := [headerRow], result := .error .timeoutError,
          cookieWarning := false } := rfl

/-- C4 (amended): every transport failure at any page terminates the run with
no retry (the file stops before the failing page and the result is never a
success); a non-success HTTP status (HTTPError) is caught and reported with
likely causes, returning False, but a network error or timeout propagates out
of the script as a raw exception. -/
theorem c4_transport_failures
    (cookieFile : Option (Except JsonError (List Cookie)))
    (fetch : Option (List Cookie) → Nat → Except PyExc Page) (k : Nat) (e : PyExc)
    (hk : 1 ≤ k)
    (he : e = .httpError ∨ e = .connectionError ∨ e = .timeoutError)
    (hfail : fetch (load_cookies cookieFile).1 k = .error e)
    (hclean : ∀ j, 1 ≤ j → j < k → cleanAt (fetch (load_cookies cookieFile).1) j)
    (hfirst : k = 1 ∨ ∃ p1 tp, fetch (load_cookies cookieFile).1 1 = .ok p1
        ∧ total_pages_calc p1.pagination = .ok tp ∧ (k : Int) ≤ tp) :
    (download_and_process_goodreads_data cookieFile fetch).file
        = headerRow ::
            pagesRows (fetch (load_cookies cookieFile).1) (List.range' 1 (k - 1))
      ∧ (download_and_process_goodreads_data cookieFile fetch).result ≠ .ok true
      ∧ (e = .httpError →
          (download_and_process_goodreads_data cookieFile fetch).result = .ok false)
      ∧ (e ≠ .httpError →
          (download_and_process_goodreads_data cookieFile fetch).result = .error e) := by
  have hd := download_fail_at hk hfail hclean hfirst
  rw [hd]
  refine ⟨rfl, ?_, ?_, ?_⟩
  · intro hcon
    unfold catchHTTP at hcon
    by_cases hh : e = .httpError
    · rw [if_pos hh] at hcon
      exact Bool.noConfusion (Except.ok.inj hcon)
    · rw [if_neg hh] at hcon
      exact Except.noConfusion hcon
  · intro hh
    simp [catchHTTP, hh]
  · intro hh
    simp [catchHTTP, hh]

/-- Witness for c4_transport_failures: an HTTP-status failure on page 2 of a
three-page run ends the run gracefully with result False after writing only
page 1 (here a page with no rows). -/
theorem c4_transport_failures_witness :
    (download_and_process_goodreads_data none
        (fun _ j => if j = 2 then .error .httpError else .ok ⟨some ["1", "2", "3", "next"], []⟩)).file
        = headerRow ::
            pagesRows ((fun _ j => if j = 2 then .error .httpError
                else .ok ⟨some ["1", "2", "3", "next"], []⟩) (none : Option (List Cookie)))
              (List.range' 1 (2 - 1))
      ∧ (download_and_process_goodreads_data none
          (fun _ j => if j = 2 then .error .httpError else .ok ⟨some ["1", "2", "3", "next"], []⟩)).result
          ≠ .ok true
      ∧ ((.httpError : PyExc) = .httpError →
          (download_and_process_goodreads_data none
            (fun _ j => if j = 2 then .error .httpError else .ok ⟨some ["1", "2", "3", "next"], []⟩)).result
            = .ok false)
      ∧ ((.httpError : PyExc) ≠ .httpError →
          (download_and_process_goodreads_data none
            (fun _ j => if j = 2 then .error .httpError else .ok ⟨some ["1", "2", "3", "next"], []⟩)).result
            = .error .httpError) :=
  c4_transport_failures none
    (fun _ j => if j = 2 then .error .httpError else .ok ⟨some ["1", "2", "3", "next"], []⟩)
    2 .httpError (by decide) (Or.inl rfl) rfl
    (fun j h1 h2 => ⟨⟨some ["1", "2", "3", "next"], []⟩, by
      have hj : j = 1 := by omega
      subst hj
      exact ⟨rfl, rfl⟩⟩)
    (Or.inr ⟨⟨some ["1", "2", "3", "next"], []⟩, 3, rfl, rfl, by decide⟩)

lemma catchHTTP_ne_ok_true (e : PyExc) : catchHTTP e ≠ .ok true := by
  intro hcon
  unfold catchHTTP at hcon
  by_cases hh : e = .httpError
  · rw [if_pos hh] at hcon
    exact Bool.noConfusion (Except.ok.inj hcon)
  · rw [if_neg hh] at hcon
    exact Except.noConfusion hcon

/-- C9: the output file is opened with mode "w" and the header row is written
before the first fetch, so a run that fails at page k still leaves a file
holding the header plus the records of pages 1 through k-1 (only the header
when k is 1), the pre-run content of the file is lost regardless (two runs
differing only in the pre-run content give the same file), and the run does
not report success. -/
theorem c9_truncating_partial_file
    (prev prevAlt : List (List String))
    (cookieFile : Option (Except JsonError (List Cookie)))
    (fetch : Option (List Cookie) → Nat → Except PyExc Page) (k : Nat) (e : PyExc)
    (hk : 1 ≤ k)
    (he : e = .httpError ∨ e = .connectionError ∨ e = .timeoutError)
    (hfail : fetch (load_cookies cookieFile).1 k = .error e)
    (hclean : ∀ j, 1 ≤ j → j < k → cleanAt (fetch (load_cookies cookieFile).1) j)
    (hfirst : k = 1 ∨ ∃ p1 tp, fetch (load_cookies cookieFile).1 1 = .ok p1
        ∧ total_pages_calc p1.pagination = .ok tp ∧ (k : Int) ≤ tp) :
    fileAfterRun prev cookieFile fetch
        = headerRow ::
            pagesRows (fetch (load_cookies cookieFile).1) (List.range' 1 (k - 1))
      ∧ fileAfterRun prev cookieFile fetch = fileAfterRun prevAlt cookieFile fetch
      ∧ (download_and_process_goodreads_data cookieFile fetch).result ≠ .ok true := by
  have hd := download_fail_at hk hfail hclean hfirst
  unfold fileAfterRun
  rw [hd]
  exact ⟨rfl, rfl, catchHTTP_ne_ok_true e⟩

/-- Witness for c9_truncating_partial_file: a connection error on page 2 of a
two-page run leaves header plus page 1 in the file, independently of two
different pre-run file contents, and the run does not succeed. -/
theorem c9_truncating_partial_file_witness :
    fileAfterRun [["stale"]] none
        (fun _ j => if j = 2 then .error .connectionError
          else .ok ⟨some ["1", "2", "next"], []⟩)
        = headerRow ::
            pagesRows ((fun _ j => if j = 2 then .error .connectionError
                else .ok ⟨some ["1", "2", "next"], []⟩) (none : Option (List Cookie)))
              (List.range' 1 (2 - 1))
      ∧ fileAfterRun [["stale"]] none
          (fun _ j => if j = 2 then .error .connectionError
            else .ok ⟨some ["1", "2", "next"], []⟩)
        = fileAfterRun [] none
            (fun _ j => if j = 2 then .error .connectionError
              else .ok ⟨some ["1", "2", "next"], []⟩)
      ∧ (download_and_process_goodreads_data none
          (fun _ j => if j = 2 then .error .connectionError
            else .ok ⟨some ["1", "2", "next"], []⟩)).result ≠ .ok true :=
  c9_truncating_partial_file [["stale"]] [] none
    (fun _ j => if j = 2 then .error .connectionError
      else .ok ⟨some ["1", "2", "next"], []⟩)
    2 .connectionError (by decide) (Or.inr (Or.inl rfl)) rfl
    (fun j h1 h2 => ⟨⟨some ["1", "2", "next"], []⟩, by
      have hj : j = 1 := by omega
      subst hj
      exact ⟨rfl, rfl⟩⟩)
    (Or.inr ⟨⟨some ["1", "2", "next"], []⟩, 2, rfl, rfl, by decide⟩)

lemma mem_dictInsert {d : List (String × String)} {k v n w : String}
    (h : (n, w) ∈ dictInsert d k v) : (n, w) ∈ d ∨ (n = k ∧ w = v) := by
  unfold dictInsert at h
  by_cases hc : (d.any fun p => p.1 = k) = true
  · rw [if_pos hc] at h
    obtain ⟨p, hp, he⟩ := List.mem_map.mp h
    by_cases hpk : p.1 = k
    · rw [if_pos hpk] at he
      have h1 : k = n := congrArg Prod.fst he
      have h2 : v = w := congrArg Prod.snd he
      exact Or.inr ⟨h1.symm, h2.symm⟩
    · rw [if_neg hpk] at he
      exact Or.inl (he ▸ hp)
  · rw [if_neg hc] at h
    rcases List.mem_append.mp h with h1 | h2
    · exact Or.inl h1
    · have he := List.mem_singleton.mp h2
      have h1 : n = k := congrArg Prod.fst he
      have h2 : w = v := congrArg Prod.snd he
      exact Or.inr ⟨h1, h2⟩

lemma dictInsert_mem_self {d : List (String × String)} {k v : String} :
    ∃ w, (k, w) ∈ dictInsert d k v := by
  unfold dictInsert
  by_cases hc : (d.any fun p => p.1 = k) = true
  · rw [if_pos hc]
    obtain ⟨p, hp, hpk⟩ := List.any_eq_true.mp hc
    refine ⟨v, List.mem_map.mpr ⟨p, hp, ?_⟩⟩
    rw [if_pos (of_decide_eq_true hpk)]
  · rw [if_neg hc]
    exact ⟨v, List.mem_append_right d (List.mem_singleton.mpr rfl)⟩

lemma dictInsert_mem_mono {d : List (String × String)} {k v n : String}
    (h : ∃ w, (n, w) ∈ d) : ∃ w, (n, w) ∈ dictInsert d k v := by
  obtain ⟨w, hw⟩ := h
  unfold dictInsert
  by_cases hc : (d.any fun p => p.1 = k) = true
  · rw [if_pos hc]
    by_cases hnk : n = k
    · subst hnk
      exact ⟨v, List.mem_map.mpr ⟨(n, w), hw, by rw [if_pos rfl]⟩⟩
    · exact ⟨w, List.mem_map.mpr ⟨(n, w), hw, by rw [if_neg hnk]⟩⟩
  · rw [if_neg hc]
    exact ⟨w, List.mem_append_left _ hw⟩

lemma cookie_fold_sound (cs : List Cookie) :
    ∀ (d : List (String × String)) (n w : String),
      (n, w) ∈ cs.foldl
        (fun d c => if cookieIncluded c then dictInsert d c.name c.value else d) d →
      (n, w) ∈ d ∨ ∃ c ∈ cs, cookieIncluded c = true ∧ c.name = n ∧ c.value = w := by
  induction cs with
  | nil =>
    intro d n w h
    simp only [List.foldl_nil] at h
    exact Or.inl h
  | cons c rest ih =>
    intro d n w h
    simp only [List.foldl_cons] at h
    by_cases hc : cookieIncluded c = true
    · rw [if_pos hc] at h
      rcases ih _ n w h with hd | ⟨c2, hc2, hinc, hn, hv⟩
      · rcases mem_dictInsert hd with hd2 | ⟨hn, hv⟩
        · exact Or.inl hd2
        · exact Or.inr ⟨c, List.mem_cons_self c rest, hc, hn.symm, hv.symm⟩
      · exact Or.inr ⟨c2, List.mem_cons_of_mem c hc2, hinc, hn, hv⟩
    · rw [if_neg hc] at h
      rcases ih d n w h with hd | ⟨c2, hc2, hinc, hn, hv⟩
      · exact Or.inl hd
      · exact Or.inr ⟨c2, List.mem_cons_of_mem c hc2, hinc, hn, hv⟩

lemma cookie_fold_mono (cs : List Cookie) :
    ∀ (d : List (String × String)) (n : String),
      (∃ w, (n, w) ∈ d) →
      ∃ w, (n, w) ∈ cs.foldl
        (fun d c => if cookieIncluded c then dictInsert d c.name c.value else d) d := by
  induction cs with
  | nil =>
    intro d n h
    simpa using h
  | cons c rest ih =>
    intro d n h
    simp only [List.foldl_cons]
    by_cases hc : cookieIncluded c = true
    · rw [if_pos hc]
      exact ih _ n (dictInsert_mem_mono h)
    · rw [if_neg hc]
      exact ih d n h

lemma cookie_fold_complete (cs : List Cookie) :
    ∀ (d : List (String × String)) (c : Cookie), c ∈ cs → cookieIncluded c = true →
      ∃ w, (c.name, w) ∈ cs.foldl
        (fun d c => if cookieIncluded c then dictInsert d c.name c.value else d) d := by
  induction cs with
  | nil =>
    intro d c hm
    exact absurd hm (List.not_mem_nil c)
  | cons c2 rest ih =>
    intro d c hm hinc
    simp only [List.foldl_cons]
    rcases List.mem_cons.mp hm with rfl | hm2
    · rw [if_pos hinc]
      exact cookie_fold_mono rest _ c.name dictInsert_mem_self
    · by_cases hc2 : cookieIncluded c2 = true
      · rw [if_pos hc2]
        exact ih _ c hm2 hinc
      · rw [if_neg hc2]
        exact ih d c hm2 hinc

/-- C5 counterexample: a cookie for an unrelated domain that is not marked
host-only passes the filter of line 63 and its name-value pair is attached to
the session, although it does not match the cookie scope of the target site
(exact host or dot-prefixed suffix), refuting that exactly the scope-matching
entries are attached. -/
theorem c5_counterexample :
    cookieIncluded ⟨"session-id", "abc", "example.com", false⟩ = true
      ∧ specCookieScopeMatch ⟨"session-id", "abc", "example.com", false⟩ = false
      ∧ cookie_dict_of [⟨"session-id", "abc", "example.com", false⟩]
          = [("session-id", "abc")] :=
  ⟨by decide, by decide, by decide⟩

/-- C5 (amended): a supplied cookie entry is attached exactly when it is not
marked host-only, or its domain literally starts with ".goodreads.com", or its
domain equals "www.goodreads.com"; only host-only entries failing that domain
test are filtered out. Every attached name-value pair comes from such an
entry, and every such entry contributes its name to the attached set. -/
theorem c5_cookie_filter (cs : List Cookie) (c : Cookie) (hc : c ∈ cs) :
    (cookieIncluded c = true
        ↔ (c.hostOnly = false ∨ pyStartsWith c.domain ".goodreads.com" = true
            ∨ c.domain = "www.goodreads.com"))
      ∧ (cookieIncluded c = true → ∃ w, (c.name, w) ∈ cookie_dict_of cs)
      ∧ (∀ n w, (n, w) ∈ cookie_dict_of cs →
          ∃ c2 ∈ cs, cookieIncluded c2 = true ∧ c2.name = n ∧ c2.value = w) := by
  refine ⟨?_, ?_, ?_⟩
  · simp [cookieIncluded, Bool.or_eq_true, Bool.not_eq_true']
  · intro hinc
    exact cookie_fold_complete cs [] c hc hinc
  · intro n w hmem
    rcases cookie_fold_sound cs [] n w hmem with hd | hex
    · exact absurd hd (List.not_mem_nil (n, w))
    · exact hex

/-- Witness for c5_cookie_filter: a host-only cookie with a dot-prefixed
goodreads domain is attached. -/
theorem c5_cookie_filter_witness :
    (cookieIncluded ⟨"sid", "v", ".goodreads.com", true⟩ = true
        ↔ ((⟨"sid", "v", ".goodreads.com", true⟩ : Cookie).hostOnly = false
            ∨ pyStartsWith (⟨"sid", "v", ".goodreads.com", true⟩ : Cookie).domain ".goodreads.com" = true
            ∨ (⟨"sid", "v", ".goodreads.com", true⟩ : Cookie).domain = "www.goodreads.com"))
      ∧ (cookieIncluded ⟨"sid", "v", ".goodreads.com", true⟩ = true →
          ∃ w, ("sid", w) ∈ cookie_dict_of [⟨"sid", "v", ".goodreads.com", true⟩])
      ∧ (∀ n w, (n, w) ∈ cookie_dict_of [⟨"sid", "v", ".goodreads.com", true⟩] →
          ∃ c2 ∈ [(⟨"sid", "v", ".goodreads.com", true⟩ : Cookie)],
            cookieIncluded c2 = true ∧ c2.name = n ∧ c2.value = w) :=
  c5_cookie_filter [⟨"sid", "v", ".goodreads.com", true⟩]
    ⟨"sid", "v", ".goodreads.com", true⟩ (by decide)

lemma writeRows_row_length {rows : List ReviewRow} :
    ∀ r ∈ (writeRows rows).1, r.length = 7 := by
  induction rows with
  | nil =>
    intro r hr
    exact absurd hr (List.not_mem_nil r)
  | cons row rest ih =>
    intro r hr
    cases hpr : process_review_row row with
    | error e =>
      simp only [writeRows, hpr] at hr
      exact absurd hr (List.not_mem_nil r)
    | ok rec =>
      rcases hwr : writeRows rest with ⟨more, err⟩
      simp only [writeRows, hpr, hwr] at hr
      rcases List.mem_cons.mp hr with rfl | hr2
      · rfl
      · exact ih r (by rw [hwr]; exact hr2)

lemma runPages_row_length {fetch : Nat → Except PyExc Page} :
    ∀ (js : List Nat), ∀ r ∈ (runPages fetch js).1, r.length = 7 := by
  intro js
  induction js with
  | nil =>
    intro r hr
    simp only [runPages] at hr
    exact absurd hr (List.not_mem_nil r)
  | cons j rest ih =>
    intro r hr
    cases hf : fetch j with
    | error e =>
      simp only [runPages, hf] at hr
      exact absurd hr (List.not_mem_nil r)
    | ok pg =>
      rcases hwr : writeRows pg.reviewRows with ⟨rs, err⟩
      cases err with
      | some e =>
        simp only [runPages, hf, hwr] at hr
        exact writeRows_row_length r (by rw [hwr]; exact hr)
      | none =>
        rcases hrp : runPages fetch rest with ⟨rs2, err2⟩
        simp only [runPages, hf, hwr, hrp] at hr
        rcases List.mem_append.mp hr with h1 | h2
        · exact writeRows_row_length r (by rw [hwr]; exact h1)
        · exact ih r (by rw [hrp]; exact h2)

lemma download_file_shape (cookieFile : Option (Except JsonError (List Cookie)))
    (fetch : Option (List Cookie) → Nat → Except PyExc Page) :
    ∃ dataRows, (download_and_process_goodreads_data cookieFile fetch).file
        = headerRow :: dataRows
      ∧ ∀ r ∈ dataRows, r.length = 7 := by
  rcases hlc : load_cookies cookieFile with ⟨cks, warned⟩
  cases hf1 : fetch cks 1 with
  | error e =>
    refine ⟨[], ?_, ?_⟩
    · simp only [download_and_process_goodreads_data, downloadCore, hlc, hf1]
    · intro r hr
      exact absurd hr (List.not_mem_nil r)
  | ok p1 =>
    cases htp : total_pages_calc p1.pagination with
    | error e =>
      refine ⟨[], ?_, ?_⟩
      · simp only [download_and_process_goodreads_data, downloadCore, hlc, hf1, htp]
      · intro r hr
        exact absurd hr (List.not_mem_nil r)
    | ok tp =>
      rcases hrp : runPages (fetch cks) (List.range' 1 tp.toNat) with ⟨rows, err⟩
      refine ⟨rows, ?_, ?_⟩
      · cases err with
        | some e =>
          simp only [download_and_process_goodreads_data, downloadCore, hlc, hf1,
            htp, hrp]
          rfl
        | none =>
          simp only [download_and_process_goodreads_data, downloadCore, hlc, hf1,
            htp, hrp]
          rfl
      · intro r hr
        exact runPages_row_length _ r (by rw [hrp]; exact hr)

/-- C6: the output file always begins with the header row carrying exactly the
seven field labels in their fixed order, every record serializes to exactly
seven fields in that order, and every data row of the file has exactly seven
fields, whatever the fetched pages contained. -/
theorem c6_output_shape (cookieFile : Option (Except JsonError (List Cookie)))
    (fetch : Option (List Cookie) → Nat → Except PyExc Page) :
    headerRow = ["Goodreads ID", "Book Title", "Date Started", "Date Read",
        "Author", "Average Rating", "Number of Pages"]
      ∧ headerRow.length = 7
      ∧ (∀ rec : Record, recordToRow rec =
          [rec.goodreadsId, rec.bookTitle, rec.dateStarted, rec.dateRead,
            rec.author, rec.avgRating, rec.numPages]
          ∧ (recordToRow rec).length = 7)
      ∧ (download_and_process_goodreads_data cookieFile fetch).file.head?
          = some headerRow
      ∧ ∀ r ∈ (download_and_process_goodreads_data cookieFile fetch).file.drop 1,
          r.length = 7 := by
  obtain ⟨dataRows, hfile, hlen⟩ := download_file_shape cookieFile fetch
  refine ⟨rfl, rfl, fun rec => ⟨rfl, rfl⟩, ?_, ?_⟩
  · rw [hfile]
    rfl
  · rw [hfile]
    intro r hr
    exact hlen r hr

/-- Witness for c6_output_shape on a one-page run with a single sparse row. -/
theorem c6_output_shape_witness :
    (download_and_process_goodreads_data none
        (fun _ _ => .ok ⟨none, [rowInnerMissing]⟩)).file.head? = some headerRow
      ∧ ∀ r ∈ (download_and_process_goodreads_data none
          (fun _ _ => .ok ⟨none, [rowInnerMissing]⟩)).file.drop 1, r.length = 7 :=
  ⟨(c6_output_shape none (fun _ _ => .ok ⟨none, [rowInnerMissing]⟩)).2.2.2.1,
   (c6_output_shape none (fun _ _ => .ok ⟨none, [rowInnerMissing]⟩)).2.2.2.2⟩

lemma anyDateRead_records (recs : List Record) :
    anyDateRead headerRow (recs.map recordToRow) = .ok false
      ∨ anyDateRead headerRow (recs.map recordToRow) = .ok true := by
  induction recs with
  | nil => exact Or.inl rfl
  | cons rec rest ih =>
    have hdict : dict_get_date_read headerRow (recordToRow rec) = .ok rec.dateRead := rfl
    simp only [List.map_cons, anyDateRead, hdict]
    by_cases hc : pyStrip rec.dateRead ≠ ""
    · rw [if_pos hc]
      exact Or.inr rfl
    · rw [if_neg hc]
      exact ih

lemma anyDateRead_false_iff (recs : List Record) :
    anyDateRead headerRow (recs.map recordToRow) = .ok false
      ↔ ∀ rec ∈ recs, pyStrip rec.dateRead = "" := by
  induction recs with
  | nil =>
    simp [anyDateRead]
  | cons rec rest ih =>
    have hdict : dict_get_date_read headerRow (recordToRow rec) = .ok rec.dateRead := rfl
    simp only [List.map_cons, anyDateRead, hdict]
    by_cases hc : pyStrip rec.dateRead ≠ ""
    · rw [if_pos hc]
      constructor
      · intro h
        exact absurd (Except.ok.inj h) Bool.noConfusion
      · intro hall
        exact absurd (hall rec (List.mem_cons_self rec rest)) hc
    · rw [if_neg hc]
      constructor
      · intro h r hr
        rcases List.mem_cons.mp hr with rfl | hr2
        · exact not_not.mp hc
        · exact (ih.mp h) r hr2
      · intro hall
        exact ih.mpr (fun r hr => hall r (List.mem_cons_of_mem rec hr))

/-- C7: on the file a successful run writes (header plus one serialized row
per record), the post-run check leaves the file unchanged (it only reads, and
it reads the file once) and prints the advisory exactly when the Date Read
value of every record strips to the empty string. -/
theorem c7_date_read_advisory (recs : List Record) :
    (date_read_check (headerRow :: recs.map recordToRow)).2
        = headerRow :: recs.map recordToRow
      ∧ ((date_read_check (headerRow :: recs.map recordToRow)).1 = true
          ↔ ∀ rec ∈ recs, pyStrip rec.dateRead = "") := by
  rcases anyDateRead_records recs with hF | hT
  · constructor
    · simp only [date_read_check, hF]
    · simp only [date_read_check, hF]
      constructor
      · intro _
        exact (anyDateRead_false_iff recs).mp hF
      · intro _
        rfl
  · constructor
    · simp only [date_read_check, hT]
    · simp only [date_read_check, hT]
      constructor
      · intro hcon
        exact absurd hcon Bool.noConfusion
      · intro hall
        have hF := (anyDateRead_false_iff recs).mpr hall
        rw [hF] at hT
        exact absurd (Except.ok.inj hT) Bool.noConfusion

/-- Witness for c7_date_read_advisory: two records with empty Date Read cells
trigger the advisory; a record with a non-empty Date Read cell does not; the
checked file is returned unchanged. -/
theorem c7_date_read_advisory_witness :
    (date_read_check (headerRow ::
        [Record.mk "1" "A" "" "" "X" "4.0" "100",
         Record.mk "2" "B" "" "  " "Y" "3.5" "200"].map recordToRow)).1 = true
      ∧ (date_read_check (headerRow ::
          [Record.mk "3" "C" "" "2023-01-05" "Z" "5.0" "50"].map recordToRow)).1 = false
      ∧ (date_read_check (headerRow ::
          [Record.mk "1" "A" "" "" "X" "4.0" "100",
           Record.mk "2" "B" "" "  " "Y" "3.5" "200"].map recordToRow)).2
        = headerRow ::
            [Record.mk "1" "A" "" "" "X" "4.0" "100",
             Record.mk "2" "B" "" "  " "Y" "3.5" "200"].map recordToRow := by
  refine ⟨(c7_date_read_advisory _).2.mpr (by decide), ?_,
    (c7_date_read_advisory
      [Record.mk "1" "A" "" "" "X" "4.0" "100",
       Record.mk "2" "B" "" "  " "Y" "3.5" "200"]).1⟩
  have hiff := (c7_date_read_advisory
    [Record.mk "3" "C" "" "2023-01-05" "Z" "5.0" "50"]).2
  cases hb : (date_read_check (headerRow ::
      [Record.mk "3" "C" "" "2023-01-05" "Z" "5.0" "50"].map recordToRow)).1 with
  | false => rfl
  | true =>
    have hall := hiff.mp hb
    exact absurd (hall (Record.mk "3" "C" "" "2023-01-05" "Z" "5.0" "50") (by decide))
      (by decide)

/-- C8: with a cookies.json present but holding invalid JSON, the run prints
the warning and then behaves exactly as a run with no cookie file at all: the
same output file and the same result, so a malformed credential file never
aborts or crashes the run. -/
theorem c8_bad_cookie_file
    (fetch : Option (List Cookie) → Nat → Except PyExc Page) :
    (download_and_process_goodreads_data (some (.error .decodeError)) fetch).cookieWarning
        = true
      ∧ (download_and_process_goodreads_data (some (.error .decodeError)) fetch).file
          = (download_and_process_goodreads_data none fetch).file
      ∧ (download_and_process_goodreads_data (some (.error .decodeError)) fetch).result
          = (download_and_process_goodreads_data none fetch).result := by
  have h1 : load_cookies (some (.error .decodeError)) = (none, true) := rfl
  have h2 : load_cookies (none : Option (Except JsonError (List Cookie)))
      = (none, false) := rfl
  rcases hdc : downloadCore none fetch with ⟨f, r⟩
  simp only [download_and_process_goodreads_data, h1, h2, hdc]
  exact ⟨trivial, trivial, trivial⟩

end ParseGoodreads
